import Mathlib

/-!
Verification of the task-queue core of the browser-use-automation repository:
the task store (`api/database.py`), the queue and worker loop
(`api/task_queue.py`), the submission endpoint (`api/server.py`) and the
request validation (`api/models.py`), embedded shallowly.  Timestamps are
abstracted to `Nat`, SQLite rows to a Lean structure, and the tasks table to a
list of rows.
-/

namespace BrowserUse

/-- Task lifecycle status.  The source stores the status as one of the five
strings `queued`, `running`, `completed`, `failed`, `timeout` (see the enum
listed in the `GET /tasks` docstring in `api/server.py` and the writes in
`api/task_queue.py`); the spec calls the last state `timed_out`. -/
inductive Status where
  | queued
  | running
  | completed
  | failed
  | timeout
deriving DecidableEq, Repr

/-- One row of the `tasks` table, following the schema created in
`TaskDatabase.initialize` (`api/database.py`).  `form_data` keeps the JSON
blob as an opaque string (the source stores `json.dumps(form_data)`);
timestamps are abstract `Nat` instants. -/
structure TaskRecord where
  task_id : String
  url : String
  task_description : String
  form_data : String
  callback_url : Option String
  timeout : Nat
  status : Status
  result : Option String
  error : Option String
  callback_attempts : Nat
  last_callback_error : Option String
  created_at : Nat
  started_at : Option Nat
  completed_at : Option Nat
deriving DecidableEq, Repr

/-- The tasks table: a list of rows, keyed by `task_id`. -/
abbrev Store := List TaskRecord

/-- TaskDatabase.get_task: `SELECT * FROM tasks WHERE task_id = ?`, returning
the first matching row or `none`. -/
def get_task (task_id : String) (s : Store) : Option TaskRecord :=
  s.find? (fun r => r.task_id = task_id)

/-- TaskDatabase.mark_incomplete_as_failed: `UPDATE tasks SET status='failed',
error='Server restarted during execution', completed_at=? WHERE status IN
('queued','running')`, with `?` the current time. -/
def mark_incomplete_as_failed (now : Nat) (s : Store) : Store :=
  s.map (fun r =>
    if r.status = Status.queued ∨ r.status = Status.running then
      { r with status := Status.failed,
               error := some "Server restarted during execution",
               completed_at := some now }
    else r)

/-- Row written by `TaskDatabase.create_task`: status `queued`, `created_at`
= now, `callback_attempts` at its column default 0, every other unfilled
column NULL. -/
def new_task_record (task_id url task_description form_data : String)
    (callback_url : Option String) (timeout : Nat) (now : Nat) : TaskRecord :=
  { task_id := task_id
    url := url
    task_description := task_description
    form_data := form_data
    callback_url := callback_url
    timeout := timeout
    status := Status.queued
    result := none
    error := none
    callback_attempts := 0
    last_callback_error := none
    created_at := now
    started_at := none
    completed_at := none }

/-- TaskDatabase.create_task: `INSERT INTO tasks (...) VALUES (..., 'queued', ?)`.
An insert whose `task_id` collides with an existing primary key raises
(sqlite3.IntegrityError); otherwise one new row is appended. -/
def db_create_task (task_id url task_description form_data : String)
    (callback_url : Option String) (timeout : Nat) (now : Nat) (s : Store) :
    Except Unit Store :=
  if s.any (fun r => r.task_id = task_id) then Except.error ()
  else Except.ok (s ++
    [new_task_record task_id url task_description form_data callback_url
      timeout now])

/-- TaskDatabase.update_status: builds `UPDATE tasks SET status=?, ... WHERE
task_id=?`.  `started_at`, `completed_at` are added to the SET list when
truthy, `result`, `error` when not `None`; a `task_id` matching no row leaves
the table unchanged and raises nothing. -/
def update_status (task_id : String) (status : Status)
    (started_at completed_at : Option Nat) (result error : Option String)
    (s : Store) : Store :=
  s.map (fun r =>
    if r.task_id = task_id then
      { r with status := status,
               started_at := match started_at with
                 | some v => some v
                 | none => r.started_at,
               completed_at := match completed_at with
                 | some v => some v
                 | none => r.completed_at,
               result := match result with
                 | some v => some v
                 | none => r.result,
               error := match error with
                 | some v => some v
                 | none => r.error }
    else r)

/-- TaskDatabase.update_callback_attempt: `UPDATE tasks SET
callback_attempts=?, last_callback_error=? WHERE task_id=?`; both columns are
always written (the error may be NULL); an unknown `task_id` is a silent
no-op. -/
def update_callback_attempt (task_id : String) (attempts : Nat)
    (error : Option String) (s : Store) : Store :=
  s.map (fun r =>
    if r.task_id = task_id then
      { r with callback_attempts := attempts, last_callback_error := error }
    else r)

/-- Payload posted to the webhook (`CallbackPayload` in `api/models.py`):
task id, terminal status, result or error, completion timestamp. -/
structure CallbackPayload where
  task_id : String
  status : Status
  result : Option String
  error : Option String
  completed_at : Nat
deriving DecidableEq, Repr

/-- Observable actions of the worker pipeline, in the order the (fully
sequential) source performs them: dequeuing an id from the asyncio queue,
awaiting the browser agent (`asyncio.wait_for(agent.run(), timeout)`),
posting the webhook, persisting a callback attempt, and sleeping between
callback retries (`await asyncio.sleep(wait_time)`). -/
inductive Event where
  | dequeue (task_id : String)
  | executorRun (task_id : String) (timeout : Nat)
  | httpPost (url : String) (payload : CallbackPayload)
  | persistAttempt (attempts : Nat) (error : Option String)
  | sleep (seconds : Nat)
deriving DecidableEq, Repr

/-- Error text recorded for a failed webhook attempt,
`f"Callback attempt \x7battempt + 1\x7d failed: \x7bstr(e)\x7d"` in
`TaskQueue._send_callback`. -/
def callback_error_string (attempt : Nat) (exc : String) : String :=
  "Callback attempt " ++ toString (attempt + 1) ++ " failed: " ++ exc

/-- The body of the retry loop `for attempt in range(WEBHOOK_RETRY_ATTEMPTS)`
in `TaskQueue._send_callback`.  `attempt` is the 0-based loop index,
`remaining` the number of iterations the `range` has left (initially
`retryAttempts`, so `attempt + remaining = retryAttempts` throughout).
`postOk n` tells whether the HTTP POST of attempt index `n` gets a 2xx
response; `excOf n` is the exception text otherwise.  On success the attempt
count is persisted with no error and the loop returns; on failure the attempt
count and error are persisted and, unless this was the last attempt, the loop
sleeps `retryDelay * 2 ^ attempt` seconds and retries. -/
def send_callback_aux (task_id callback_url : String)
    (payload : CallbackPayload) (postOk : Nat → Bool) (excOf : Nat → String)
    (retryAttempts retryDelay : Nat) :
    Nat → Nat → Store → Store × List Event
  | _, 0, s => (s, [])
  | attempt, remaining + 1, s =>
    let post := Event.httpPost callback_url payload
    if postOk attempt then
      (update_callback_attempt task_id (attempt + 1) none s,
       [post, Event.persistAttempt (attempt + 1) none])
    else
      let msg := callback_error_string attempt (excOf attempt)
      let s1 := update_callback_attempt task_id (attempt + 1) (some msg) s
      if attempt < retryAttempts - 1 then
        let w := retryDelay * 2 ^ attempt
        let rest := send_callback_aux task_id callback_url payload postOk
          excOf retryAttempts retryDelay (attempt + 1) remaining s1
        (rest.1,
         post :: Event.persistAttempt (attempt + 1) (some msg) ::
           Event.sleep w :: rest.2)
      else
        (s1, [post, Event.persistAttempt (attempt + 1) (some msg)])

/-- TaskQueue._send_callback: builds the payload and runs the retry loop for
at most `retryAttempts` attempts (`WEBHOOK_RETRY_ATTEMPTS`, default 3) with
base delay `retryDelay` (`WEBHOOK_RETRY_DELAY`, default 2). -/
def send_callback (task_id callback_url : String) (status : Status)
    (result error : Option String) (completed_at : Nat)
    (postOk : Nat → Bool) (excOf : Nat → String)
    (retryAttempts retryDelay : Nat) (s : Store) : Store × List Event :=
  send_callback_aux task_id callback_url
    { task_id := task_id, status := status, result := result, error := error,
      completed_at := completed_at }
    postOk excOf retryAttempts retryDelay 0 retryAttempts s

/-- Outcome of one `asyncio.wait_for(agent.run(), timeout)` call inside
`TaskQueue._run_browser_task`: a result string, an `asyncio.TimeoutError`, or
any other exception with its text. -/
inductive ExecOutcome where
  | success (result : String)
  | timedOut
  | failure (exc : String)
deriving DecidableEq, Repr

/-- Error text of the timeout branch of `TaskQueue._execute_task`:
`f"Task exceeded timeout of \x7btask['timeout']\x7d seconds"`. -/
def timeout_error_string (timeout : Nat) : String :=
  "Task exceeded timeout of " ++ toString timeout ++ " seconds"

/-- Error text of the generic-exception branch of `TaskQueue._execute_task`:
`f"Task execution error: \x7bstr(e)\x7d"`. -/
def execution_error_string (exc : String) : String :=
  "Task execution error: " ++ exc

/-- TaskQueue._execute_task, run to completion (no cancellation): fetch the
row (returning with no effect when missing), transition it to `running` with
`started_at`, await the agent, and on each outcome write the corresponding
terminal transition and then — awaited inline — send the webhook when a
callback URL is configured.  The success and timeout branches read
`callback_url` from the row fetched up front; the failure branch re-fetches
the row from the store first.  `outcome` is the executor's behaviour,
`postOk`/`excOf` the webhook's; `startedAt`/`completedAt` the clock readings
at the two `datetime.utcnow()` calls around execution. -/
def execute_task (outcome : ExecOutcome) (postOk : Nat → Bool)
    (excOf : Nat → String) (retryAttempts retryDelay : Nat)
    (startedAt completedAt : Nat) (task_id : String) (s : Store) :
    Store × List Event :=
  match get_task task_id s with
  | none => (s, [])
  | some task =>
    let s1 := update_status task_id Status.running (some startedAt) none
      none none s
    let run := Event.executorRun task_id task.timeout
    match outcome with
    | ExecOutcome.success result =>
      let s2 := update_status task_id Status.completed none (some completedAt)
        (some result) none s1
      match task.callback_url with
      | some cb =>
        let cbRun := send_callback task_id cb Status.completed (some result)
          none completedAt postOk excOf retryAttempts retryDelay s2
        (cbRun.1, run :: cbRun.2)
      | none => (s2, [run])
    | ExecOutcome.timedOut =>
      let msg := timeout_error_string task.timeout
      let s2 := update_status task_id Status.timeout none (some completedAt)
        none (some msg) s1
      match task.callback_url with
      | some cb =>
        let cbRun := send_callback task_id cb Status.timeout none (some msg)
          completedAt postOk excOf retryAttempts retryDelay s2
        (cbRun.1, run :: cbRun.2)
      | none => (s2, [run])
    | ExecOutcome.failure exc =>
      let msg := execution_error_string exc
      let s2 := update_status task_id Status.failed none (some completedAt)
        none (some msg) s1
      match get_task task_id s2 with
      | some task2 =>
        match task2.callback_url with
        | some cb =>
          let cbRun := send_callback task_id cb Status.failed none (some msg)
            completedAt postOk excOf retryAttempts retryDelay s2
          (cbRun.1, run :: cbRun.2)
        | none => (s2, [run])
      | none => (s2, [run])

/-- TaskQueue._worker, draining a queue with no stoppage: each iteration
dequeues the next id and runs `_execute_task` on it to completion (the
`await self._execute_task(task_id)` makes execution, terminal write and
callback delivery all sequential).  Per-task behaviour of the executor and
webhook is given by the oracles `outcomeOf`, `postOkOf`, `excOf`, and the
clock by `startedAtOf`/`completedAtOf`. -/
def worker_run (outcomeOf : String → ExecOutcome)
    (postOkOf : String → Nat → Bool) (excOf : String → Nat → String)
    (retryAttempts retryDelay : Nat) (startedAtOf completedAtOf : String → Nat) :
    List String → Store → Store × List Event
  | [], s => (s, [])
  | task_id :: rest, s =>
    let one := execute_task (outcomeOf task_id) (postOkOf task_id)
      (excOf task_id) retryAttempts retryDelay (startedAtOf task_id)
      (completedAtOf task_id) task_id s
    let more := worker_run outcomeOf postOkOf excOf retryAttempts retryDelay
      startedAtOf completedAtOf rest one.1
    (more.1, (Event.dequeue task_id :: one.2) ++ more.2)

/-- State of the persisted store when `TaskQueue.stop()` runs while the worker
is awaiting the executor.  `stop()` calls `self.worker_task.cancel()`; asyncio
raises `CancelledError` at the worker coroutine's current await point — here
`asyncio.wait_for(agent.run(), ...)` inside `_execute_task`, reached after the
`running` transition was written.  `CancelledError` derives from
`BaseException`, so neither `except asyncio.TimeoutError` nor
`except Exception` in `_execute_task` catches it; it propagates to the
`except asyncio.CancelledError: break` in `_worker`, and the loop exits with
no further store write.  The store at loop exit is therefore the store after
the `running` transition only. -/
def stop_during_executor_await (task_id : String) (startedAt : Nat)
    (s : Store) : Store :=
  update_status task_id Status.running (some startedAt) none none none s

/-- Request body of `POST /tasks` (`TaskRequest` in `api/models.py`).  `url`
and `callback_url` are kept as plain strings (pydantic's `HttpUrl` parses them
at the type level); `form_data` is the opaque serialized mapping. -/
structure TaskRequest where
  url : String
  task_description : String
  form_data : String
  callback_url : Option String
  timeout : Nat
deriving DecidableEq, Repr

/-- Field constraints pydantic enforces on `TaskRequest` before the handler
runs: `task_description` between `min_length=10` and `max_length=2000`
characters, `timeout` with `ge=30` and `le=3600`. -/
def validate_task_request (req : TaskRequest) : Bool :=
  decide (10 ≤ req.task_description.length) &&
  decide (req.task_description.length ≤ 2000) &&
  decide (30 ≤ req.timeout) && decide (req.timeout ≤ 3600)

/-- Errors the submission path can surface: pydantic's 422 on a constraint
violation, the handler's 503 when Chrome CDP is unreachable, and a database
integrity failure. -/
inductive ApiError where
  | validationError
  | serviceUnavailable
  | integrityError
deriving DecidableEq, Repr

/-- Body of the 201 response (`TaskResponse` in `api/models.py`);
`queue_position` is always passed as `None` by the handler. -/
structure TaskResponse where
  task_id : String
  status : Status
  queue_position : Option Nat
  created_at : Nat
deriving DecidableEq, Repr

/-- Server-side state the submission interface can touch: the persisted
store and the in-memory `asyncio.Queue` of the global `task_queue` (held as
the list of queued ids, FIFO front first). -/
structure ServerState where
  store : Store
  queue : List String
deriving DecidableEq, Repr

/-- The `POST /tasks` handler `create_task` in `api/server.py`, together with
the request validation FastAPI performs before it runs.  In order: pydantic
validates the body (422 on violation, handler never runs); the handler probes
Chrome CDP (`cdpHealthy`), answering 503 when it is down; it generates
`task_id = str(uuid4())` (the `fresh_id` argument) and calls
`db.create_task`.  It then returns the `TaskResponse` directly: the comment
at its end — `Note: In Phase 3, we'll add the task to the queue here` — marks
that `task_queue.add_task` is never called, so `queue` is returned untouched.
An error leaves the state unchanged. -/
def create_task_endpoint (req : TaskRequest) (fresh_id : String)
    (now : Nat) (cdpHealthy : Bool) (st : ServerState) :
    ServerState × Except ApiError TaskResponse :=
  if !validate_task_request req then (st, Except.error ApiError.validationError)
  else if !cdpHealthy then (st, Except.error ApiError.serviceUnavailable)
  else
    match db_create_task fresh_id req.url req.task_description req.form_data
      req.callback_url req.timeout now st.store with
    | Except.error _ => (st, Except.error ApiError.integrityError)
    | Except.ok store1 =>
      ({ store := store1, queue := st.queue },
       Except.ok { task_id := fresh_id, status := Status.queued,
                   queue_position := none, created_at := now })

/-- TaskQueue.add_task: `await self.queue.put(task_id)` appends the id at the
back of the FIFO queue. -/
def add_task (task_id : String) (st : ServerState) : ServerState :=
  { st with queue := st.queue ++ [task_id] }

/-- Number of rows whose status is `running`. -/
def countRunning (s : Store) : Nat :=
  s.countP (fun r => decide (r.status = Status.running))

/-- Position of the single worker coroutine inside one iteration of
`TaskQueue._worker`: idle between iterations, holding a dequeued id before
the row is fetched and marked, or executing a task whose `running` transition
has been written. -/
inductive WorkerSt where
  | idle
  | dequeued (task_id : String)
  | executing (task_id : String)
deriving DecidableEq, Repr

/-- Whole-system state for the interleaving model: the persisted store, the
in-memory queue, and the worker's position. -/
structure Sys where
  store : Store
  queue : List String
  worker : WorkerSt

/-- Interleaved small-step semantics of the operations named by the spec:
submission (record creation plus enqueue, with a fresh uuid4 id), the
individual awaits of one worker iteration (dequeue; early return when the row
is missing; the `running` transition; the terminal transition for one of the
three worker-written terminal statuses), persistence of a callback attempt
(which touches only `callback_attempts`/`last_callback_error`), and the
startup reconciliation pass (run before the worker loop begins, hence with
the worker idle). -/
inductive Step : Sys → Sys → Prop where
  | submit (σ : Sys) (req : TaskRequest) (fresh_id : String) (now : Nat)
      (hfresh : get_task fresh_id σ.store = none) :
      Step σ { store := σ.store ++
                 [new_task_record fresh_id req.url req.task_description
                   req.form_data req.callback_url req.timeout now],
               queue := σ.queue ++ [fresh_id],
               worker := σ.worker }
  | dequeue (σ : Sys) (task_id : String) (rest : List String)
      (hq : σ.queue = task_id :: rest) (hw : σ.worker = WorkerSt.idle) :
      Step σ { store := σ.store, queue := rest,
               worker := WorkerSt.dequeued task_id }
  | fetchMissing (σ : Sys) (task_id : String)
      (hw : σ.worker = WorkerSt.dequeued task_id)
      (hmiss : get_task task_id σ.store = none) :
      Step σ { σ with worker := WorkerSt.idle }
  | markRunning (σ : Sys) (task_id : String) (t : TaskRecord) (startedAt : Nat)
      (hw : σ.worker = WorkerSt.dequeued task_id)
      (hget : get_task task_id σ.store = some t) :
      Step σ { store := update_status task_id Status.running (some startedAt)
                 none none none σ.store,
               queue := σ.queue,
               worker := WorkerSt.executing task_id }
  | finish (σ : Sys) (task_id : String) (st : Status) (completedAt : Nat)
      (result error : Option String)
      (hw : σ.worker = WorkerSt.executing task_id)
      (hterm : st = Status.completed ∨ st = Status.failed ∨
        st = Status.timeout) :
      Step σ { store := update_status task_id st none (some completedAt)
                 result error σ.store,
               queue := σ.queue,
               worker := WorkerSt.idle }
  | callbackPersist (σ : Sys) (task_id : String) (attempts : Nat)
      (error : Option String) :
      Step σ { σ with store :=
                 update_callback_attempt task_id attempts error σ.store }
  | reconcile (σ : Sys) (now : Nat) (hw : σ.worker = WorkerSt.idle) :
      Step σ { store := mark_incomplete_as_failed now σ.store,
               queue := σ.queue, worker := WorkerSt.idle }

/-- Post-reconciliation start state: the reconciliation pass has just run
over whatever the store held, the worker loop has not begun, and the
in-memory queue holds whatever has been admitted since. -/
def postReconcileStart (now : Nat) (s0 : Store) (q0 : List String) : Sys :=
  { store := mark_incomplete_as_failed now s0, queue := q0,
    worker := WorkerSt.idle }

/-! Helper lemmas about the store operations. -/

/-- A row-wise rewrite that keeps every row's `task_id` commutes with row
lookup. -/
theorem get_task_map (g : TaskRecord → TaskRecord)
    (hg : ∀ r, (g r).task_id = r.task_id) (task_id : String) (s : Store) :
    get_task task_id (s.map g) = (get_task task_id s).map g := by
  unfold get_task
  rw [List.find?_map]
  have hp : ((fun r : TaskRecord => decide (r.task_id = task_id)) ∘ g) =
      (fun r : TaskRecord => decide (r.task_id = task_id)) := by
    funext r
    simp [Function.comp, hg r]
  rw [hp]

/-- A found row's key field matches the looked-up id. -/
theorem get_task_some_id {task_id : String} {s : Store} {t : TaskRecord}
    (h : get_task task_id s = some t) : t.task_id = task_id := by
  have := List.find?_some h
  simpa using this

/-- A found row is a member of the table. -/
theorem get_task_some_mem {task_id : String} {s : Store} {t : TaskRecord}
    (h : get_task task_id s = some t) : t ∈ s :=
  List.mem_of_find?_eq_some h

/-- An absent id means no row carries it. -/
theorem get_task_none_iff {task_id : String} {s : Store} :
    get_task task_id s = none ↔ ∀ r ∈ s, r.task_id ≠ task_id := by
  unfold get_task
  rw [List.find?_eq_none]
  simp

/-! C10: a dequeued id with no row in the store. -/

/-- C10: if the worker dequeues an id for which the store has no record,
`_execute_task` returns early: the store is left unchanged, the Executor is
never invoked, no status transition is written and no callback is attempted
(the event trace is empty). -/
theorem missing_row_execute_noop (outcome : ExecOutcome)
    (postOk : Nat → Bool) (excOf : Nat → String)
    (retryAttempts retryDelay startedAt completedAt : Nat)
    (task_id : String) (s : Store) (h : get_task task_id s = none) :
    execute_task outcome postOk excOf retryAttempts retryDelay startedAt
      completedAt task_id s = (s, []) := by
  unfold execute_task
  rw [h]

/-- Witness for C10 at the empty store. -/
theorem missing_row_execute_noop_witness :
    execute_task (ExecOutcome.success "r") (fun _ => true) (fun _ => "e")
      3 2 0 1 "a" [] = ([], []) :=
  missing_row_execute_noop (ExecOutcome.success "r") (fun _ => true)
    (fun _ => "e") 3 2 0 1 "a" [] (by rfl)

/-! C8: store updates on an unknown id. -/

/-- Shared example row used by concrete runs below. -/
def sampleTask (task_id : String) (callback_url : Option String) : TaskRecord :=
  { task_id := task_id
    url := "http://site.example"
    task_description := "fill in the contact form"
    form_data := "\x7b\x7d"
    callback_url := callback_url
    timeout := 60
    status := Status.queued
    result := none
    error := none
    callback_attempts := 0
    last_callback_error := none
    created_at := 0
    started_at := none
    completed_at := none }

/-- Counterexample to C8: updating the status of an id absent from the store
succeeds silently and modifies no record — the claimed `NotFoundError` does
not exist on this path (`UPDATE ... WHERE task_id = ?` simply matches no
row), contradicting the claim that the operation "does not succeed silently
without modifying any record". -/
theorem unknown_id_update_silent_counterexample :
    update_status "missing" Status.completed none (some 9) (some "r") none
        [sampleTask "b" none] = [sampleTask "b" none] ∧
      update_callback_attempt "missing" 1 (some "err")
        [sampleTask "b" none] = [sampleTask "b" none] := by
  constructor <;> rfl

/-- C8 amended: a lifecycle update (`update_status`) or a callback-attempt
update (`update_callback_attempt`) whose id does not exist in the store is a
silent no-op: it succeeds, modifies no record, and raises no error. -/
theorem unknown_id_update_noop (task_id : String) (st : Status)
    (started_at completed_at : Option Nat) (result error : Option String)
    (attempts : Nat) (cbError : Option String) (s : Store)
    (h : get_task task_id s = none) :
    update_status task_id st started_at completed_at result error s = s ∧
      update_callback_attempt task_id attempts cbError s = s := by
  have habs := get_task_none_iff.mp h
  constructor
  · unfold update_status
    calc s.map _ = s.map id := by
          apply List.map_congr_left
          intro r hr
          simp [habs r hr]
      _ = s := List.map_id s
  · unfold update_callback_attempt
    calc s.map _ = s.map id := by
          apply List.map_congr_left
          intro r hr
          simp [habs r hr]
      _ = s := List.map_id s

/-- Witness for C8 (amended) at a concrete store lacking the id. -/
theorem unknown_id_update_noop_witness :
    update_status "a" Status.failed none none none none [sampleTask "b" none]
        = [sampleTask "b" none] ∧
      update_callback_attempt "a" 2 none [sampleTask "b" none]
        = [sampleTask "b" none] :=
  unknown_id_update_noop "a" Status.failed none none none none 2 none
    [sampleTask "b" none] (by rfl)

/-! C3: the startup reconciliation pass. -/

/-- Counterexample to C3: reconciliation writes the failure reason
`"Server restarted during execution"` (capital S, from the SQL literal in
`mark_incomplete_as_failed`), not the claimed string
`"server restarted during execution"`: the transitioned record's reason
differs from the one the claim quotes. -/
theorem reconcile_reason_counterexample :
    (get_task "b" (mark_incomplete_as_failed 5 [sampleTask "b" none])).map
        TaskRecord.error ≠
        some (some "server restarted during execution") ∧
      (get_task "b" (mark_incomplete_as_failed 5 [sampleTask "b" none])).map
        TaskRecord.error =
        some (some "Server restarted during execution") := by
  constructor
  · decide
  · rfl

/-- C3 amended: after the startup reconciliation routine runs, no record has
status `queued` or `running`; every record that had one of those statuses has
been transitioned to `failed` with failure reason
`"Server restarted during execution"` and `completed_at` set to the
reconciliation time, and all other records are unchanged. -/
theorem reconcile_clears_incomplete (now : Nat) (s : Store) :
    (∀ r ∈ mark_incomplete_as_failed now s,
        r.status ≠ Status.queued ∧ r.status ≠ Status.running) ∧
      ∀ (i : Nat) (r : TaskRecord), s[i]? = some r →
        ((r.status = Status.queued ∨ r.status = Status.running) →
            (mark_incomplete_as_failed now s)[i]? =
              some { r with status := Status.failed,
                            error := some "Server restarted during execution",
                            completed_at := some now }) ∧
          (¬(r.status = Status.queued ∨ r.status = Status.running) →
            (mark_incomplete_as_failed now s)[i]? = some r) := by
  constructor
  · intro r hr
    unfold mark_incomplete_as_failed at hr
    obtain ⟨r0, _, rfl⟩ := List.mem_map.mp hr
    by_cases h0 : r0.status = Status.queued ∨ r0.status = Status.running
    · simp only [if_pos h0]
      exact ⟨by simp, by simp⟩
    · simp only [if_neg h0]
      push_neg at h0
      exact h0
  · intro i r hir
    unfold mark_incomplete_as_failed
    constructor
    · intro hqr
      rw [List.getElem?_map, hir]
      simp [if_pos hqr]
    · intro hqr
      rw [List.getElem?_map, hir]
      simp [if_neg hqr]

/-- Witness for C3 (amended) at a two-row store: one queued row becomes
failed with the restart reason, one completed row is untouched. -/
theorem reconcile_clears_incomplete_witness :
    (∀ r ∈ mark_incomplete_as_failed 5
        [sampleTask "b" none, { sampleTask "c" none with
          status := Status.completed }],
        r.status ≠ Status.queued ∧ r.status ≠ Status.running) ∧
      ∀ (i : Nat) (r : TaskRecord), [sampleTask "b" none, { sampleTask "c" none with
          status := Status.completed }][i]? = some r →
        ((r.status = Status.queued ∨ r.status = Status.running) →
            (mark_incomplete_as_failed 5 [sampleTask "b" none,
              { sampleTask "c" none with status := Status.completed }])[i]? =
              some { r with status := Status.failed,
                            error := some "Server restarted during execution",
                            completed_at := some 5 }) ∧
          (¬(r.status = Status.queued ∨ r.status = Status.running) →
            (mark_incomplete_as_failed 5 [sampleTask "b" none,
              { sampleTask "c" none with
                status := Status.completed }])[i]? = some r) :=
  reconcile_clears_incomplete 5 [sampleTask "b" none,
    { sampleTask "c" none with status := Status.completed }]

/-! C6: `stop()` while a task is executing. -/

/-- Counterexample to C6: stopping the queue while the worker awaits the
Executor leaves the task record with status `running` — `stop()` calls
`worker_task.cancel()`, the `CancelledError` aborts `_execute_task` at the
`asyncio.wait_for(agent.run(), ...)` await (it is caught by neither of that
function's handlers), and the loop breaks with no terminal transition
written.  The claim that the in-flight invocation runs to its natural
completion and that no record is left with status `running` is false. -/
theorem stop_leaves_running_counterexample :
    (get_task "a" (stop_during_executor_await "a" 7
        [sampleTask "a" none])).map TaskRecord.status =
      some Status.running := by
  rfl

/-- C6 amended: `stop()` cancels the worker task rather than letting it run
to completion.  When the cancellation lands while the Executor invocation is
in flight — i.e. after the `running` transition was persisted — the
invocation is aborted and the record is left with status `running` (no
terminal transition is written); `stop()` still returns only after awaiting
the cancelled worker task. -/
theorem stop_aborts_inflight_execution (task_id : String) (startedAt : Nat)
    (s : Store) (t : TaskRecord) (h : get_task task_id s = some t) :
    get_task task_id (stop_during_executor_await task_id startedAt s) =
      some { t with status := Status.running, started_at := some startedAt } := by
  unfold stop_during_executor_await update_status
  rw [get_task_map _ (fun r => by dsimp only; split <;> rfl), h]
  simp [get_task_some_id h]

/-- Witness for C6 (amended) at a concrete one-row store. -/
theorem stop_aborts_inflight_execution_witness :
    get_task "a" (stop_during_executor_await "a" 7 [sampleTask "a" none]) =
      some { sampleTask "a" none with status := Status.running,
                                      started_at := some 7 } :=
  stop_aborts_inflight_execution "a" 7 [sampleTask "a" none]
    (sampleTask "a" none) (by rfl)

/-! C7: timeout validation at submission. -/

/-- C7: a submission whose timeout lies outside the configured
`[MIN_TASK_TIMEOUT, MAX_TASK_TIMEOUT] = [30, 3600]` range fails with a
validation error and writes no record (the server state is unchanged,
whatever the CDP probe says); a submission with an in-range timeout (and the
other pydantic constraints met, a healthy CDP probe and a fresh uuid) writes
exactly one new record, with status `queued` and `created_at` set to now. -/
theorem timeout_validation (req : TaskRequest) (fresh_id : String) (now : Nat)
    (st : ServerState) :
    ((req.timeout < 30 ∨ 3600 < req.timeout) →
        ∀ cdpHealthy, create_task_endpoint req fresh_id now cdpHealthy st =
          (st, Except.error ApiError.validationError)) ∧
      (30 ≤ req.timeout → req.timeout ≤ 3600 →
        10 ≤ req.task_description.length →
        req.task_description.length ≤ 2000 →
        get_task fresh_id st.store = none →
        create_task_endpoint req fresh_id now true st =
          ({ store := st.store ++
               [new_task_record fresh_id req.url req.task_description
                 req.form_data req.callback_url req.timeout now],
             queue := st.queue },
           Except.ok { task_id := fresh_id, status := Status.queued,
                       queue_position := none, created_at := now }) ∧
          (new_task_record fresh_id req.url req.task_description
            req.form_data req.callback_url req.timeout now).status =
            Status.queued ∧
          (new_task_record fresh_id req.url req.task_description
            req.form_data req.callback_url req.timeout now).created_at =
            now) := by
  constructor
  · intro hout cdpHealthy
    have hval : validate_task_request req = false := by
      unfold validate_task_request
      rcases hout with h | h
      · have : ¬(30 ≤ req.timeout) := by omega
        simp [this]
      · have : ¬(req.timeout ≤ 3600) := by omega
        simp [this]
    unfold create_task_endpoint
    rw [hval]
    rfl
  · intro h1 h2 h3 h4 hfresh
    have hval : validate_task_request req = true := by
      unfold validate_task_request
      simp [h1, h2, h3, h4]
    have hany : st.store.any (fun r => r.task_id = fresh_id) = false := by
      have := get_task_none_iff.mp hfresh
      simp only [List.any_eq_false]
      intro r hr
      simp [this r hr]
    unfold create_task_endpoint db_create_task
    rw [hval, hany]
    exact ⟨rfl, rfl, rfl⟩

/-- Valid example submission used to exercise the POST /tasks handler. -/
def demoRequest : TaskRequest :=
  { url := "http://site.example"
    task_description := "fill in the contact form"
    form_data := "\x7b\x7d"
    callback_url := none
    timeout := 300 }

/-- Witness for C7 at two concrete submissions: timeout 10 is rejected with
state unchanged, timeout 300 creates the queued record. -/
theorem timeout_validation_witness :
    (create_task_endpoint { demoRequest with timeout := 10 } "id-a" 0 true
        { store := [], queue := [] } =
      ({ store := [], queue := [] },
       Except.error ApiError.validationError)) ∧
      create_task_endpoint demoRequest "id-a" 0 true
          { store := [], queue := [] } =
        ({ store := [new_task_record "id-a" "http://site.example"
             "fill in the contact form" "\x7b\x7d" none 300 0],
           queue := [] },
         Except.ok { task_id := "id-a", status := Status.queued,
                     queue_position := none, created_at := 0 }) := by
  constructor
  · exact (timeout_validation _ "id-a" 0 _).1 (Or.inl (by decide)) true
  · exact ((timeout_validation _ "id-a" 0 _).2 (by decide) (by decide)
      (by decide) (by decide) (by rfl)).1

/-! C1: submission is supposed to enqueue the new task's id. -/

/-- C1, evaluated at a failing input (any accepted submission): the handler
creates the record with status `queued` and returns 201, but the in-memory
queue is left empty — `create_task` in `api/server.py` never calls
`task_queue.add_task` (its closing comment reads `Note: In Phase 3, we'll
add the task to the queue here`) and nothing ever starts the worker.  The
worker loop, which only ever takes ids from that queue, therefore performs
no dequeue, no execution and no store write: the submitted task stays
`queued` forever instead of completing, contradicting both the claim and the
handler's own docstring ("The task is queued for execution"). -/
theorem accepted_submission_never_enqueued :
    (create_task_endpoint demoRequest "id-a" 0 true
        { store := [], queue := [] }).1.queue = [] ∧
      (create_task_endpoint demoRequest "id-a" 0 true
          { store := [], queue := [] }).2 =
        Except.ok { task_id := "id-a", status := Status.queued,
                    queue_position := none, created_at := 0 } ∧
      worker_run (fun _ => ExecOutcome.success "done") (fun _ _ => true)
          (fun _ _ => "") 3 2 (fun _ => 1) (fun _ => 2)
          (create_task_endpoint demoRequest "id-a" 0 true
            { store := [], queue := [] }).1.queue
          (create_task_endpoint demoRequest "id-a" 0 true
            { store := [], queue := [] }).1.store =
        ((create_task_endpoint demoRequest "id-a" 0 true
          { store := [], queue := [] }).1.store, []) ∧
      (get_task "id-a" (create_task_endpoint demoRequest "id-a" 0 true
          { store := [], queue := [] }).1.store).map TaskRecord.status =
        some Status.queued := by
  refine ⟨rfl, rfl, rfl, rfl⟩

/-! Callback delivery touches only the two callback bookkeeping columns; the
`CoreView` projection drops exactly those columns. -/

/-- Every column of a task row except `callback_attempts` and
`last_callback_error`. -/
structure CoreView where
  task_id : String
  url : String
  task_description : String
  form_data : String
  callback_url : Option String
  timeout : Nat
  status : Status
  result : Option String
  error : Option String
  created_at : Nat
  started_at : Option Nat
  completed_at : Option Nat
deriving DecidableEq, Repr

/-- Projection dropping the callback bookkeeping columns. -/
def coreView (r : TaskRecord) : CoreView :=
  { task_id := r.task_id
    url := r.url
    task_description := r.task_description
    form_data := r.form_data
    callback_url := r.callback_url
    timeout := r.timeout
    status := r.status
    result := r.result
    error := r.error
    created_at := r.created_at
    started_at := r.started_at
    completed_at := r.completed_at }

/-- Recording a callback attempt changes no core column of any row. -/
theorem coreView_update_callback_attempt (task_id : String) (attempts : Nat)
    (error : Option String) (s : Store) :
    (update_callback_attempt task_id attempts error s).map coreView =
      s.map coreView := by
  unfold update_callback_attempt
  rw [List.map_map]
  apply List.map_congr_left
  intro r _
  dsimp [Function.comp]
  split <;> rfl

/-- The whole webhook retry loop changes no core column of any row. -/
theorem send_callback_aux_core (task_id callback_url : String)
    (payload : CallbackPayload) (postOk : Nat → Bool) (excOf : Nat → String)
    (retryAttempts retryDelay : Nat) (remaining : Nat) :
    ∀ (attempt : Nat) (s : Store),
      ((send_callback_aux task_id callback_url payload postOk excOf
        retryAttempts retryDelay attempt remaining s).1).map coreView =
        s.map coreView := by
  induction remaining with
  | zero => intro attempt s; rfl
  | succ n ih =>
    intro attempt s
    dsimp only [send_callback_aux]
    by_cases hp : postOk attempt
    · simp only [hp, if_true]
      exact coreView_update_callback_attempt _ _ _ _
    · simp only [hp, Bool.false_eq_true, if_false]
      by_cases ha : attempt < retryAttempts - 1
      · simp only [ha, if_true]
        rw [ih, coreView_update_callback_attempt]
      · simp only [ha, if_false]
        exact coreView_update_callback_attempt _ _ _ _

/-- Lookup depends only on the core columns: tables equal under `coreView`
give lookups equal under `coreView`. -/
theorem get_task_coreView_congr (task_id : String) :
    ∀ (l1 l2 : Store), l1.map coreView = l2.map coreView →
      (get_task task_id l1).map coreView =
        (get_task task_id l2).map coreView := by
  intro l1
  induction l1 with
  | nil =>
    intro l2 h
    cases l2 with
    | nil => rfl
    | cons r2 t2 => simp at h
  | cons r1 t1 ih =>
    intro l2 h
    cases l2 with
    | nil => simp at h
    | cons r2 t2 =>
      simp only [List.map_cons, List.cons.injEq] at h
      obtain ⟨h1, h2⟩ := h
      have hid : r1.task_id = r2.task_id := by
        have := congrArg CoreView.task_id h1
        simpa [coreView] using this
      unfold get_task
      rw [List.find?_cons, List.find?_cons]
      by_cases hr : r1.task_id = task_id
      · have hr2 : r2.task_id = task_id := by rw [← hid]; exact hr
        simp only [hr, hr2, decide_eq_true_eq]
        simp [h1]
      · have hr2 : ¬(r2.task_id = task_id) := by rw [← hid]; exact hr
        simp only [hr, hr2, decide_eq_false]
        exact ih t2 h2

/-- With at least one attempt configured, the retry loop posts to the
callback URL at least once, with the payload it was given. -/
theorem httpPost_mem_send_callback_aux (task_id callback_url : String)
    (payload : CallbackPayload) (postOk : Nat → Bool) (excOf : Nat → String)
    (retryAttempts retryDelay attempt remaining : Nat) (s : Store)
    (h : 0 < remaining) :
    Event.httpPost callback_url payload ∈
      (send_callback_aux task_id callback_url payload postOk excOf
        retryAttempts retryDelay attempt remaining s).2 := by
  cases remaining with
  | zero => omega
  | succ n =>
    dsimp only [send_callback_aux]
    by_cases hp : postOk attempt
    · simp [hp]
    · by_cases ha : attempt < retryAttempts - 1
      · simp [hp, ha]
      · simp [hp, ha]

/-- A lifecycle transition rewrites exactly the looked-up row, with the SET
list the source builds from the non-null arguments. -/
theorem get_task_update_status_self (task_id : String) (status : Status)
    (sa ca : Option Nat) (res err : Option String) (s : Store)
    (t : TaskRecord) (hget : get_task task_id s = some t) :
    get_task task_id (update_status task_id status sa ca res err s) =
      some { t with
        status := status,
        started_at := match sa with
          | some v => some v
          | none => t.started_at,
        completed_at := match ca with
          | some v => some v
          | none => t.completed_at,
        result := match res with
          | some v => some v
          | none => t.result,
        error := match err with
          | some v => some v
          | none => t.error } := by
  unfold update_status
  rw [get_task_map _ (fun r => by by_cases hr : r.task_id = task_id <;>
    simp [hr]), hget]
  simp [get_task_some_id hget]

/-- The timeout branch's failure reason is a non-empty description. -/
theorem timeout_error_string_ne_empty (n : Nat) :
    timeout_error_string n ≠ "" := by
  intro h
  have := congrArg String.length h
  rw [timeout_error_string] at this
  simp [String.length_append] at this
  exact absurd this.1.1 (by decide)

/-! C2: Executor timeout. -/

/-- C2: when the Executor invocation exceeds its timeout
(`asyncio.TimeoutError` from `asyncio.wait_for`), the worker transitions the
persisted record to the terminal timeout status — stored as the string
`timeout`, the state the spec names `timed_out` — with the descriptive,
non-empty failure reason `Task exceeded timeout of N seconds` and
`completed_at` set; and when a callback is configured (and at least one
webhook attempt is allowed) a POST to it is attempted whose payload carries
that same timeout status and error. -/
theorem executor_timeout_marks_timed_out (postOk : Nat → Bool)
    (excOf : Nat → String) (retryAttempts retryDelay : Nat)
    (startedAt completedAt : Nat) (task_id : String) (s : Store)
    (t : TaskRecord) (hget : get_task task_id s = some t) :
    (∃ r, get_task task_id (execute_task ExecOutcome.timedOut postOk excOf
        retryAttempts retryDelay startedAt completedAt task_id s).1 =
          some r ∧
        r.status = Status.timeout ∧
        r.error = some (timeout_error_string t.timeout) ∧
        timeout_error_string t.timeout ≠ "" ∧
        r.completed_at = some completedAt) ∧
      ∀ cb, t.callback_url = some cb → 0 < retryAttempts →
        Event.httpPost cb
            { task_id := task_id, status := Status.timeout, result := none,
              error := some (timeout_error_string t.timeout),
              completed_at := completedAt } ∈
          (execute_task ExecOutcome.timedOut postOk excOf retryAttempts
            retryDelay startedAt completedAt task_id s).2 := by
  have h1 := get_task_update_status_self task_id Status.running
    (some startedAt) none none none s t hget
  have h2 := get_task_update_status_self task_id Status.timeout none
    (some completedAt) none (some (timeout_error_string t.timeout)) _ _ h1
  simp only [execute_task, hget]
  rcases hcb : t.callback_url with _ | cb
  · refine ⟨⟨_, h2, rfl, rfl, timeout_error_string_ne_empty _, rfl⟩, ?_⟩
    intro cb hsome
    exact absurd hsome (by simp)
  · constructor
    · have hcore := send_callback_aux_core task_id cb
        { task_id := task_id, status := Status.timeout, result := none,
          error := some (timeout_error_string t.timeout),
          completed_at := completedAt } postOk excOf retryAttempts retryDelay
        retryAttempts 0 (update_status task_id Status.timeout none
          (some completedAt) none (some (timeout_error_string t.timeout))
          (update_status task_id Status.running (some startedAt) none none
            none s))
      have hfind := get_task_coreView_congr task_id _ _ hcore
      rw [h2] at hfind
      rcases hout : get_task task_id (send_callback_aux task_id cb
          { task_id := task_id, status := Status.timeout, result := none,
            error := some (timeout_error_string t.timeout),
            completed_at := completedAt } postOk excOf retryAttempts
          retryDelay 0 retryAttempts (update_status task_id Status.timeout
            none (some completedAt) none
            (some (timeout_error_string t.timeout))
            (update_status task_id Status.running (some startedAt) none none
              none s))).1 with _ | r
      · rw [hout] at hfind
        simp at hfind
      · rw [hout] at hfind
        simp only [Option.map_some] at hfind
        have hr := Option.some.inj hfind
        refine ⟨r, ?_, ?_, ?_, timeout_error_string_ne_empty _, ?_⟩
        · exact hout
        · have := congrArg CoreView.status hr
          simpa [coreView] using this
        · have := congrArg CoreView.error hr
          simpa [coreView] using this
        · have := congrArg CoreView.completed_at hr
          simpa [coreView] using this
    · intro cb2 hsome hpos
      have hcb2 : cb2 = cb := by
        simpa using hsome.symm
      subst hcb2
      exact List.mem_cons_of_mem _
        (httpPost_mem_send_callback_aux _ _ _ _ _ _ _ _ _ _ hpos)

/-- Witness for C2: a concrete task with a callback, timing out with three
webhook attempts configured. -/
theorem executor_timeout_marks_timed_out_witness :
    (∃ r, get_task "a" (execute_task ExecOutcome.timedOut (fun _ => false)
        (fun _ => "connection refused") 3 2 1 2 "a"
        [sampleTask "a" (some "http://cb.example")]).1 = some r ∧
        r.status = Status.timeout ∧
        r.error = some (timeout_error_string
          (sampleTask "a" (some "http://cb.example")).timeout) ∧
        timeout_error_string
          (sampleTask "a" (some "http://cb.example")).timeout ≠ "" ∧
        r.completed_at = some 2) ∧
      ∀ cb, (sampleTask "a" (some "http://cb.example")).callback_url =
          some cb → 0 < 3 →
        Event.httpPost cb
            { task_id := "a", status := Status.timeout, result := none,
              error := some (timeout_error_string
                (sampleTask "a" (some "http://cb.example")).timeout),
              completed_at := 2 } ∈
          (execute_task ExecOutcome.timedOut (fun _ => false)
            (fun _ => "connection refused") 3 2 1 2 "a"
            [sampleTask "a" (some "http://cb.example")]).2 :=
  executor_timeout_marks_timed_out (fun _ => false)
    (fun _ => "connection refused") 3 2 1 2 "a"
    [sampleTask "a" (some "http://cb.example")]
    (sampleTask "a" (some "http://cb.example")) (by rfl)

/-! C4: the webhook retry loop. -/

/-- Webhook POST attempts in a trace. -/
def isPost : Event → Bool
  | Event.httpPost _ _ => true
  | _ => false

/-- Number of webhook POST attempts in a trace. -/
def postCount (evs : List Event) : Nat := evs.countP isPost

/-- Backoff sleep durations in a trace, in order. -/
def sleepsOf : List Event → List Nat
  | [] => []
  | Event.sleep w :: rest => w :: sleepsOf rest
  | _ :: rest => sleepsOf rest

/-- Persisted (attempt count, last error) pairs in a trace, in order. -/
def persistsOf : List Event → List (Nat × Option String)
  | [] => []
  | Event.persistAttempt n e :: rest => (n, e) :: persistsOf rest
  | _ :: rest => persistsOf rest

/-- The event trace of the retry loop in isolation: the loop's observable
behaviour does not depend on the store it updates, so its trace can be
described as a store-free recursion (proved equal to the trace of
`send_callback_aux` below). -/
def send_callback_trace (callback_url : String) (payload : CallbackPayload)
    (postOk : Nat → Bool) (excOf : Nat → String)
    (retryAttempts retryDelay : Nat) : Nat → Nat → List Event
  | _, 0 => []
  | attempt, remaining + 1 =>
    if postOk attempt then
      [Event.httpPost callback_url payload,
       Event.persistAttempt (attempt + 1) none]
    else
      if attempt < retryAttempts - 1 then
        Event.httpPost callback_url payload ::
          Event.persistAttempt (attempt + 1)
            (some (callback_error_string attempt (excOf attempt))) ::
          Event.sleep (retryDelay * 2 ^ attempt) ::
          send_callback_trace callback_url payload postOk excOf retryAttempts
            retryDelay (attempt + 1) remaining
      else
        [Event.httpPost callback_url payload,
         Event.persistAttempt (attempt + 1)
           (some (callback_error_string attempt (excOf attempt)))]

/-- The retry loop's event trace is the store-free trace. -/
theorem send_callback_aux_trace (task_id callback_url : String)
    (payload : CallbackPayload) (postOk : Nat → Bool) (excOf : Nat → String)
    (retryAttempts retryDelay : Nat) :
    ∀ (remaining attempt : Nat) (s : Store),
      (send_callback_aux task_id callback_url payload postOk excOf
          retryAttempts retryDelay attempt remaining s).2 =
        send_callback_trace callback_url payload postOk excOf retryAttempts
          retryDelay attempt remaining := by
  intro remaining
  induction remaining with
  | zero => intro attempt s; rfl
  | succ n ih =>
    intro attempt s
    dsimp only [send_callback_aux, send_callback_trace]
    by_cases hp : postOk attempt
    · rw [if_pos hp, if_pos hp]
    · rw [if_neg hp, if_neg hp]
      by_cases ha : attempt < retryAttempts - 1
      · rw [if_pos ha, if_pos ha]
        dsimp only
        rw [ih]
      · rw [if_neg ha, if_neg ha]

/-- The loop makes at most `remaining` POST attempts. -/
theorem trace_postCount_le (callback_url : String)
    (payload : CallbackPayload) (postOk : Nat → Bool) (excOf : Nat → String)
    (retryAttempts retryDelay : Nat) :
    ∀ (remaining attempt : Nat),
      postCount (send_callback_trace callback_url payload postOk excOf
        retryAttempts retryDelay attempt remaining) ≤ remaining := by
  intro remaining
  induction remaining with
  | zero => intro attempt; simp [send_callback_trace, postCount]
  | succ n ih =>
    intro attempt
    dsimp only [send_callback_trace]
    by_cases hp : postOk attempt
    · rw [if_pos hp]
      simp [postCount, List.countP_cons, isPost]
    · rw [if_neg hp]
      by_cases ha : attempt < retryAttempts - 1
      · rw [if_pos ha]
        have := ih (attempt + 1)
        simp [postCount, List.countP_cons, isPost] at this ⊢
        omega
      · rw [if_neg ha]
        simp [postCount, List.countP_cons, isPost]

/-- With at least one iteration left, the loop makes at least one attempt. -/
theorem trace_postCount_pos (callback_url : String)
    (payload : CallbackPayload) (postOk : Nat → Bool) (excOf : Nat → String)
    (retryAttempts retryDelay : Nat) (remaining attempt : Nat)
    (h : 0 < remaining) :
    0 < postCount (send_callback_trace callback_url payload postOk excOf
      retryAttempts retryDelay attempt remaining) := by
  cases remaining with
  | zero => omega
  | succ n =>
    dsimp only [send_callback_trace]
    by_cases hp : postOk attempt
    · rw [if_pos hp]
      simp [postCount, List.countP_cons, isPost]
    · rw [if_neg hp]
      by_cases ha : attempt < retryAttempts - 1
      · rw [if_pos ha]
        simp [postCount, List.countP_cons, isPost]
      · rw [if_neg ha]
        simp [postCount, List.countP_cons, isPost]

/-- Backoff formula: with `attempt + remaining = retryAttempts`, the sleep
between attempts `k` and `k + 1` of the run starting at loop index `attempt`
is `retryDelay * 2 ^ (attempt + k)`. -/
theorem trace_sleeps (callback_url : String) (payload : CallbackPayload)
    (postOk : Nat → Bool) (excOf : Nat → String)
    (retryAttempts retryDelay : Nat) :
    ∀ (remaining attempt : Nat), attempt + remaining = retryAttempts →
      sleepsOf (send_callback_trace callback_url payload postOk excOf
          retryAttempts retryDelay attempt remaining) =
        (List.range (postCount (send_callback_trace callback_url payload
          postOk excOf retryAttempts retryDelay attempt remaining) - 1)).map
          (fun k => retryDelay * 2 ^ (attempt + k)) := by
  intro remaining
  induction remaining with
  | zero => intro attempt _; simp [send_callback_trace, sleepsOf, postCount]
  | succ n ih =>
    intro attempt hsum
    dsimp only [send_callback_trace]
    by_cases hp : postOk attempt
    · rw [if_pos hp]
      simp [sleepsOf, postCount, List.countP_cons, isPost]
    · rw [if_neg hp]
      by_cases ha : attempt < retryAttempts - 1
      · rw [if_pos ha]
        have hn : 0 < n := by omega
        have hpos := trace_postCount_pos callback_url payload postOk excOf
          retryAttempts retryDelay n (attempt + 1) hn
        have hcount : postCount (Event.httpPost callback_url payload ::
            Event.persistAttempt (attempt + 1)
              (some (callback_error_string attempt (excOf attempt))) ::
            Event.sleep (retryDelay * 2 ^ attempt) ::
            send_callback_trace callback_url payload postOk excOf
              retryAttempts retryDelay (attempt + 1) n) =
            postCount (send_callback_trace callback_url payload postOk excOf
              retryAttempts retryDelay (attempt + 1) n) + 1 := by
          simp [postCount, List.countP_cons, isPost]
        rw [hcount]
        simp only [sleepsOf]
        rw [ih (attempt + 1) (by omega), Nat.add_sub_cancel]
        have hr : List.range (postCount (send_callback_trace callback_url
            payload postOk excOf retryAttempts retryDelay (attempt + 1) n)) =
            0 :: (List.range (postCount (send_callback_trace callback_url
              payload postOk excOf retryAttempts retryDelay (attempt + 1)
              n) - 1)).map Nat.succ := by
          conv_lhs => rw [show postCount (send_callback_trace callback_url
            payload postOk excOf retryAttempts retryDelay (attempt + 1) n) =
            (postCount (send_callback_trace callback_url payload postOk excOf
              retryAttempts retryDelay (attempt + 1) n) - 1) + 1 by omega]
          rw [List.range_succ_eq_map]
        rw [hr]
        simp only [List.map_cons, List.map_map]
        congr 1
        apply List.map_congr_left
        intro k _
        simp only [Function.comp, Nat.succ_eq_add_one]
        rw [show attempt + (k + 1) = attempt + 1 + k by omega]
      · rw [if_neg ha]
        simp [sleepsOf, postCount, List.countP_cons, isPost]

/-- Persistence bookkeeping: the run starting at loop index `attempt` that
makes `p` POSTs persists exactly the pairs
`(attempt + k + 1, error of attempt k)` for `k < p`, the error being `none`
exactly on a successful POST. -/
theorem trace_persists (callback_url : String) (payload : CallbackPayload)
    (postOk : Nat → Bool) (excOf : Nat → String)
    (retryAttempts retryDelay : Nat) :
    ∀ (remaining attempt : Nat),
      persistsOf (send_callback_trace callback_url payload postOk excOf
          retryAttempts retryDelay attempt remaining) =
        (List.range (postCount (send_callback_trace callback_url payload
          postOk excOf retryAttempts retryDelay attempt remaining))).map
          (fun k => (attempt + k + 1,
            if postOk (attempt + k) then none
            else some (callback_error_string (attempt + k)
              (excOf (attempt + k))))) := by
  intro remaining
  induction remaining with
  | zero => intro attempt; simp [send_callback_trace, persistsOf, postCount]
  | succ n ih =>
    intro attempt
    dsimp only [send_callback_trace]
    by_cases hp : postOk attempt
    · rw [if_pos hp]
      have h1 : postCount [Event.httpPost callback_url payload,
          Event.persistAttempt (attempt + 1) none] = 1 := by
        simp [postCount, List.countP_cons, isPost]
      rw [h1]
      simp [persistsOf, List.range_succ, hp]
    · rw [if_neg hp]
      by_cases ha : attempt < retryAttempts - 1
      · rw [if_pos ha]
        have hcount : postCount (Event.httpPost callback_url payload ::
            Event.persistAttempt (attempt + 1)
              (some (callback_error_string attempt (excOf attempt))) ::
            Event.sleep (retryDelay * 2 ^ attempt) ::
            send_callback_trace callback_url payload postOk excOf
              retryAttempts retryDelay (attempt + 1) n) =
            postCount (send_callback_trace callback_url payload postOk excOf
              retryAttempts retryDelay (attempt + 1) n) + 1 := by
          simp [postCount, List.countP_cons, isPost]
        rw [hcount]
        simp only [persistsOf]
        rw [ih (attempt + 1), List.range_succ_eq_map]
        simp only [List.map_cons, List.map_map]
        congr 1
        · simp [hp]
        · apply List.map_congr_left
          intro k _
          simp only [Function.comp, Nat.succ_eq_add_one]
          rw [show attempt + (k + 1) = attempt + 1 + k by omega]
      · rw [if_neg ha]
        have h1 : postCount [Event.httpPost callback_url payload,
            Event.persistAttempt (attempt + 1)
              (some (callback_error_string attempt (excOf attempt)))] = 1 := by
          simp [postCount, List.countP_cons, isPost]
        rw [h1]
        simp [persistsOf, List.range_succ, hp]

/-- Every attempt made before the run's last one failed (the loop stops at
the first success). -/
theorem trace_prefix_failed (callback_url : String)
    (payload : CallbackPayload) (postOk : Nat → Bool) (excOf : Nat → String)
    (retryAttempts retryDelay : Nat) :
    ∀ (remaining attempt : Nat), ∀ k,
      k + 1 < postCount (send_callback_trace callback_url payload postOk
        excOf retryAttempts retryDelay attempt remaining) →
      postOk (attempt + k) = false := by
  intro remaining
  induction remaining with
  | zero =>
    intro attempt k hk
    simp [send_callback_trace, postCount] at hk
  | succ n ih =>
    intro attempt k hk
    rw [send_callback_trace] at hk
    by_cases hp : postOk attempt
    · rw [if_pos hp] at hk
      simp [postCount, List.countP_cons, isPost] at hk
    · by_cases ha : attempt < retryAttempts - 1
      · rw [if_neg hp, if_pos ha] at hk
        have hcount : postCount (Event.httpPost callback_url payload ::
            Event.persistAttempt (attempt + 1)
              (some (callback_error_string attempt (excOf attempt))) ::
            Event.sleep (retryDelay * 2 ^ attempt) ::
            send_callback_trace callback_url payload postOk excOf
              retryAttempts retryDelay (attempt + 1) n) =
            postCount (send_callback_trace callback_url payload postOk excOf
              retryAttempts retryDelay (attempt + 1) n) + 1 := by
          simp [postCount, List.countP_cons, isPost]
        rw [hcount] at hk
        cases k with
        | zero => simpa using hp
        | succ k2 =>
          rw [show attempt + (k2 + 1) = attempt + 1 + k2 by omega]
          exact ih (attempt + 1) k2 (by omega)
      · rw [if_neg hp, if_neg ha] at hk
        simp [postCount, List.countP_cons, isPost] at hk

/-- If the run stops before exhausting its remaining budget, its last
attempt succeeded. -/
theorem trace_stop_success (callback_url : String)
    (payload : CallbackPayload) (postOk : Nat → Bool) (excOf : Nat → String)
    (retryAttempts retryDelay : Nat) :
    ∀ (remaining attempt : Nat), attempt + remaining = retryAttempts →
      postCount (send_callback_trace callback_url payload postOk excOf
        retryAttempts retryDelay attempt remaining) < remaining →
      postOk (attempt + postCount (send_callback_trace callback_url payload
        postOk excOf retryAttempts retryDelay attempt remaining) - 1) =
        true := by
  intro remaining
  induction remaining with
  | zero =>
    intro attempt _ hlt
    omega
  | succ n ih =>
    intro attempt hsum hlt
    rw [send_callback_trace] at hlt ⊢
    by_cases hp : postOk attempt
    · rw [if_pos hp] at hlt ⊢
      have h1 : postCount [Event.httpPost callback_url payload,
          Event.persistAttempt (attempt + 1) none] = 1 := by
        simp [postCount, List.countP_cons, isPost]
      rw [h1]
      simpa using hp
    · by_cases ha : attempt < retryAttempts - 1
      · rw [if_neg hp, if_pos ha] at hlt ⊢
        have hcount : postCount (Event.httpPost callback_url payload ::
            Event.persistAttempt (attempt + 1)
              (some (callback_error_string attempt (excOf attempt))) ::
            Event.sleep (retryDelay * 2 ^ attempt) ::
            send_callback_trace callback_url payload postOk excOf
              retryAttempts retryDelay (attempt + 1) n) =
            postCount (send_callback_trace callback_url payload postOk excOf
              retryAttempts retryDelay (attempt + 1) n) + 1 := by
          simp [postCount, List.countP_cons, isPost]
        rw [hcount] at hlt ⊢
        have hpos := trace_postCount_pos callback_url payload postOk excOf
          retryAttempts retryDelay n (attempt + 1) (by omega)
        have := ih (attempt + 1) (by omega) (by omega)
        rw [show attempt + (postCount (send_callback_trace callback_url
            payload postOk excOf retryAttempts retryDelay (attempt + 1) n) +
            1) - 1 = attempt + 1 + postCount (send_callback_trace
            callback_url payload postOk excOf retryAttempts retryDelay
            (attempt + 1) n) - 1 by omega]
        exact this
      · rw [if_neg hp, if_neg ha] at hlt ⊢
        have h1 : postCount [Event.httpPost callback_url payload,
            Event.persistAttempt (attempt + 1)
              (some (callback_error_string attempt (excOf attempt)))] = 1 := by
          simp [postCount, List.countP_cons, isPost]
        rw [h1] at hlt
        omega

/-- C4: webhook delivery for a task (`_send_callback`) makes at most
`WEBHOOK_RETRY_ATTEMPTS` POST attempts and at least one when any are
allowed; it stops immediately after the first successful attempt (every
attempt before the last one made failed, and a run stopping short of its
budget ends on a success); the wait between attempt `n` and `n + 1`
(1-based) is `WEBHOOK_RETRY_DELAY * 2 ^ (n - 1)`, a strictly increasing
sequence whenever the base delay is positive; after each attempt the attempt
count so far is persisted in `callback_attempts` together with the last
error, `none` exactly on success; and the run never changes any row's status
(or any other core column) — exhausting all attempts leaves the task's
terminal status intact. -/
theorem webhook_retry_policy (task_id callback_url : String)
    (status : Status) (result error : Option String) (completed_at : Nat)
    (postOk : Nat → Bool) (excOf : Nat → String)
    (retryAttempts retryDelay : Nat) (s : Store) :
    postCount (send_callback task_id callback_url status result error
        completed_at postOk excOf retryAttempts retryDelay s).2 ≤
      retryAttempts ∧
    (0 < retryAttempts →
      0 < postCount (send_callback task_id callback_url status result error
        completed_at postOk excOf retryAttempts retryDelay s).2) ∧
    sleepsOf (send_callback task_id callback_url status result error
        completed_at postOk excOf retryAttempts retryDelay s).2 =
      (List.range (postCount (send_callback task_id callback_url status
        result error completed_at postOk excOf retryAttempts retryDelay
        s).2 - 1)).map (fun k => retryDelay * 2 ^ k) ∧
    (0 < retryDelay →
      (sleepsOf (send_callback task_id callback_url status result error
        completed_at postOk excOf retryAttempts retryDelay s).2).Pairwise
        (· < ·)) ∧
    persistsOf (send_callback task_id callback_url status result error
        completed_at postOk excOf retryAttempts retryDelay s).2 =
      (List.range (postCount (send_callback task_id callback_url status
        result error completed_at postOk excOf retryAttempts retryDelay
        s).2)).map (fun k => (k + 1,
          if postOk k then none
          else some (callback_error_string k (excOf k)))) ∧
    (∀ k, k + 1 < postCount (send_callback task_id callback_url status
        result error completed_at postOk excOf retryAttempts retryDelay
        s).2 → postOk k = false) ∧
    (postCount (send_callback task_id callback_url status result error
        completed_at postOk excOf retryAttempts retryDelay s).2 <
        retryAttempts →
      postOk (postCount (send_callback task_id callback_url status result
        error completed_at postOk excOf retryAttempts retryDelay s).2 - 1) =
        true) ∧
    ((send_callback task_id callback_url status result error completed_at
        postOk excOf retryAttempts retryDelay s).1).map coreView =
      s.map coreView := by
  have htr : (send_callback task_id callback_url status result error
      completed_at postOk excOf retryAttempts retryDelay s).2 =
      send_callback_trace callback_url
        { task_id := task_id, status := status, result := result,
          error := error, completed_at := completed_at } postOk excOf
        retryAttempts retryDelay 0 retryAttempts :=
    send_callback_aux_trace task_id callback_url _ postOk excOf retryAttempts
      retryDelay retryAttempts 0 s
  rw [htr]
  have h3 := trace_sleeps callback_url
    { task_id := task_id, status := status, result := result, error := error,
      completed_at := completed_at } postOk excOf retryAttempts retryDelay
    retryAttempts 0 (by omega)
  refine ⟨trace_postCount_le _ _ _ _ _ _ _ _,
    fun h => trace_postCount_pos _ _ _ _ _ _ _ _ h, ?_, ?_, ?_, ?_, ?_, ?_⟩
  · rw [h3]
    apply List.map_congr_left
    intro k _
    rw [Nat.zero_add]
  · intro hd
    rw [h3, List.pairwise_map]
    refine (List.pairwise_lt_range _).imp ?_
    intro a b hab
    exact mul_lt_mul_of_pos_left
      (Nat.pow_lt_pow_right (by omega) (by omega)) hd
  · rw [trace_persists callback_url
      { task_id := task_id, status := status, result := result,
        error := error, completed_at := completed_at } postOk excOf
      retryAttempts retryDelay retryAttempts 0]
    apply List.map_congr_left
    intro k _
    rw [Nat.zero_add]
  · intro k hk
    have := trace_prefix_failed callback_url
      { task_id := task_id, status := status, result := result,
        error := error, completed_at := completed_at } postOk excOf
      retryAttempts retryDelay retryAttempts 0 k hk
    rwa [Nat.zero_add] at this
  · intro hlt
    have := trace_stop_success callback_url
      { task_id := task_id, status := status, result := result,
        error := error, completed_at := completed_at } postOk excOf
      retryAttempts retryDelay retryAttempts 0 (by omega) hlt
    rwa [Nat.zero_add] at this
  · exact send_callback_aux_core task_id callback_url _ postOk excOf
      retryAttempts retryDelay retryAttempts 0 s

/-- Witness for C4: a concrete delivery (three attempts allowed, base delay
2, first attempt failing and second succeeding), with the positive-delay
hypothesis discharged. -/
theorem webhook_retry_policy_witness :
    postCount (send_callback "a" "http://cb.example" Status.completed
        (some "done") none 2 (fun k => decide (k = 1)) (fun _ => "boom") 3 2
        [sampleTask "a" (some "http://cb.example")]).2 ≤ 3 ∧
      (sleepsOf (send_callback "a" "http://cb.example" Status.completed
        (some "done") none 2 (fun k => decide (k = 1)) (fun _ => "boom") 3 2
        [sampleTask "a" (some "http://cb.example")]).2).Pairwise (· < ·) ∧
      ((send_callback "a" "http://cb.example" Status.completed (some "done")
          none 2 (fun k => decide (k = 1)) (fun _ => "boom") 3 2
          [sampleTask "a" (some "http://cb.example")]).1).map coreView =
        [sampleTask "a" (some "http://cb.example")].map coreView := by
  have h := webhook_retry_policy "a" "http://cb.example" Status.completed
    (some "done") none 2 (fun k => decide (k = 1)) (fun _ => "boom") 3 2
    [sampleTask "a" (some "http://cb.example")]
  exact ⟨h.1, h.2.2.2.1 (by decide), h.2.2.2.2.2.2.2⟩

/-! C5: callback delivery versus worker progress. -/

/-- Queue-dequeue events in a trace. -/
def isDequeue : Event → Bool
  | Event.dequeue _ => true
  | _ => false

/-- Whether some backoff sleep precedes a later dequeue in a trace.  In the
sequential worker semantics, trace order is execution order, so the claim
that callback delivery never delays the worker's next dequeue says exactly
that this is `false` for every worker run. -/
def hasDequeueAfterSleep : List Event → Bool
  | [] => false
  | Event.sleep _ :: rest => rest.any isDequeue || hasDequeueAfterSleep rest
  | _ :: rest => hasDequeueAfterSleep rest

/-- A sleep somewhere in the first part and a dequeue somewhere in the
second part witness a dequeue after a sleep. -/
theorem hasDequeueAfterSleep_append (w : Nat) (xs ys : List Event)
    (hs : Event.sleep w ∈ xs) (hd : ys.any isDequeue = true) :
    hasDequeueAfterSleep (xs ++ ys) = true := by
  induction xs with
  | nil => simp at hs
  | cons e xs ih =>
    rcases List.mem_cons.mp hs with he | hmem
    · rw [← he]
      simp [hasDequeueAfterSleep, List.any_append, hd]
    · have h2 := ih hmem
      cases e <;> simp [hasDequeueAfterSleep, h2]

/-- A failing non-final attempt is followed by a backoff sleep in the retry
loop's trace. -/
theorem sleep_mem_send_callback_aux (task_id callback_url : String)
    (payload : CallbackPayload) (postOk : Nat → Bool) (excOf : Nat → String)
    (retryAttempts retryDelay attempt remaining : Nat) (s : Store)
    (hrem : 0 < remaining) (hp : postOk attempt = false)
    (ha : attempt < retryAttempts - 1) :
    Event.sleep (retryDelay * 2 ^ attempt) ∈
      (send_callback_aux task_id callback_url payload postOk excOf
        retryAttempts retryDelay attempt remaining s).2 := by
  cases remaining with
  | zero => omega
  | succ n =>
    dsimp only [send_callback_aux]
    rw [if_neg (by simp [hp]), if_pos ha]
    simp

/-- Counterexample to C5: in a concrete two-task run where the first task's
configured callback keeps failing, the worker's own execution sequence
contains the callback backoff sleeps before the dequeue of the second task —
`_execute_task` awaits `_send_callback` (including its
`await asyncio.sleep(...)` backoffs) before returning to the loop, so the
claim that the worker proceeds to the next queue item without waiting for
the callback attempts is false. -/
theorem callback_blocks_worker_counterexample :
    hasDequeueAfterSleep (worker_run (fun _ => ExecOutcome.success "done")
      (fun _ _ => false) (fun _ _ => "refused") 3 2 (fun _ => 1) (fun _ => 2)
      ["a", "b"]
      [sampleTask "a" (some "http://cb.example"), sampleTask "b" none]).2 =
      true := by
  rfl

/-- C5 amended: callback delivery is awaited inline by the worker — whenever
a dequeued task completes with a configured callback whose first attempt
fails (and more than one attempt is allowed), the worker's trace contains a
backoff sleep before the dequeue of the next queued id. -/
theorem worker_blocks_on_callback (outcomeOf : String → ExecOutcome)
    (postOkOf : String → Nat → Bool) (excOf : String → Nat → String)
    (retryAttempts retryDelay : Nat)
    (startedAtOf completedAtOf : String → Nat) (a b : String)
    (rest : List String) (s : Store) (t : TaskRecord) (cb res : String)
    (hget : get_task a s = some t) (hcb : t.callback_url = some cb)
    (hout : outcomeOf a = ExecOutcome.success res)
    (hfail : postOkOf a 0 = false) (hN : 1 < retryAttempts) :
    hasDequeueAfterSleep (worker_run outcomeOf postOkOf excOf retryAttempts
      retryDelay startedAtOf completedAtOf (a :: b :: rest) s).2 = true := by
  dsimp only [worker_run]
  rw [List.cons_append]
  show hasDequeueAfterSleep (_ ++ _) = true
  apply hasDequeueAfterSleep_append (retryDelay * 2 ^ 0)
  · simp only [execute_task, hget, hout, hcb]
    exact List.mem_cons_of_mem _
      (sleep_mem_send_callback_aux _ _ _ _ _ _ _ _ _ _ (by omega) hfail
        (by omega))
  · dsimp only [worker_run]
    simp [isDequeue]

/-- Witness for C5 (amended) at a concrete two-task configuration. -/
theorem worker_blocks_on_callback_witness :
    hasDequeueAfterSleep (worker_run (fun _ => ExecOutcome.success "ok")
      (fun _ _ => false) (fun _ _ => "boom") 2 5 (fun _ => 1) (fun _ => 2)
      ("a" :: "b" :: []) [sampleTask "a" (some "http://hook.example")]).2 =
      true :=
  worker_blocks_on_callback (fun _ => ExecOutcome.success "ok")
    (fun _ _ => false) (fun _ _ => "boom") 2 5 (fun _ => 1) (fun _ => 2)
    "a" "b" [] [sampleTask "a" (some "http://hook.example")]
    (sampleTask "a" (some "http://hook.example")) "http://hook.example" "ok"
    (by rfl) (by rfl) (by rfl) (by rfl) (by omega)

/-! C9: at most one row is `running` at any instant. -/

/-- A row-wise rewrite that keeps every row's `task_id` keeps the table's
key column. -/
theorem map_task_id_map (g : TaskRecord → TaskRecord)
    (hg : ∀ r, (g r).task_id = r.task_id) (s : Store) :
    (s.map g).map TaskRecord.task_id = s.map TaskRecord.task_id := by
  rw [List.map_map]
  apply List.map_congr_left
  intro r _
  simp [Function.comp, hg r]

/-- With pairwise-distinct keys, at most one row carries a given key. -/
theorem countP_task_id_le_one (s : Store) (task_id : String)
    (hnd : (s.map TaskRecord.task_id).Nodup) :
    s.countP (fun r => decide (r.task_id = task_id)) ≤ 1 := by
  induction s with
  | nil => simp
  | cons r t ih =>
    rw [List.map_cons, List.nodup_cons] at hnd
    rw [List.countP_cons]
    by_cases hid : r.task_id = task_id
    · have hzero : t.countP (fun r => decide (r.task_id = task_id)) = 0 := by
        rw [List.countP_eq_zero]
        intro x hx hpx
        have hx2 : x.task_id = task_id := by simpa using hpx
        exact hnd.1 (by
          rw [hid, ← hx2]
          exact List.mem_map_of_mem TaskRecord.task_id hx)
      rw [hzero]
      simp [hid]
    · have := ih hnd.2
      simp [hid]
      omega

/-- Inductive invariant: the table's keys are pairwise distinct, and any
`running` row belongs to the task the worker is currently executing (so in
particular there is none while the worker is not executing). -/
def SysInv (σ : Sys) : Prop :=
  (σ.store.map TaskRecord.task_id).Nodup ∧
  ∀ r ∈ σ.store, r.status = Status.running →
    σ.worker = WorkerSt.executing r.task_id

/-- The invariant holds at a post-reconciliation start. -/
theorem SysInv_init (now : Nat) (s0 : Store) (q0 : List String)
    (h0 : (s0.map TaskRecord.task_id).Nodup) :
    SysInv (postReconcileStart now s0 q0) := by
  constructor
  · show ((mark_incomplete_as_failed now s0).map TaskRecord.task_id).Nodup
    unfold mark_incomplete_as_failed
    rw [map_task_id_map _ (fun r => by
      by_cases h : r.status = Status.queued ∨ r.status = Status.running <;>
        simp [h])]
    exact h0
  · intro r hr hrun
    exfalso
    unfold postReconcileStart mark_incomplete_as_failed at hr
    obtain ⟨r0, _, rfl⟩ := List.mem_map.mp hr
    by_cases hq : r0.status = Status.queued ∨ r0.status = Status.running
    · rw [if_pos hq] at hrun
      simp at hrun
    · rw [if_neg hq] at hrun
      push_neg at hq
      exact hq.2 hrun

/-- Every operation preserves the invariant. -/
theorem SysInv_step (σ σ2 : Sys) (hinv : SysInv σ) (hstep : Step σ σ2) :
    SysInv σ2 := by
  obtain ⟨hnd, hrun⟩ := hinv
  cases hstep with
  | submit req fresh_id now hfresh =>
    constructor
    · show ((σ.store ++ [new_task_record fresh_id req.url req.task_description
        req.form_data req.callback_url req.timeout now]).map
          TaskRecord.task_id).Nodup
      rw [List.map_append]
      refine List.Nodup.append hnd (by simp) ?_
      intro x hx hx2
      simp [new_task_record] at hx2
      obtain ⟨r0, hr0, hr0x⟩ := List.mem_map.mp hx
      have := get_task_none_iff.mp hfresh r0 hr0
      rw [hr0x, hx2] at this
      exact this rfl
    · intro r hr hrrun
      rcases List.mem_append.mp hr with hold | hnew
      · exact hrun r hold hrrun
      · simp at hnew
        rw [hnew] at hrrun
        simp [new_task_record] at hrrun
  | dequeue task_id rest hq hw =>
    refine ⟨hnd, ?_⟩
    intro r hr hrrun
    have := hrun r hr hrrun
    rw [hw] at this
    simp at this
  | fetchMissing task_id hw hmiss =>
    refine ⟨hnd, ?_⟩
    intro r hr hrrun
    have := hrun r hr hrrun
    rw [hw] at this
    simp at this
  | markRunning task_id t startedAt hw hget =>
    constructor
    · show ((update_status task_id Status.running (some startedAt) none none
        none σ.store).map TaskRecord.task_id).Nodup
      unfold update_status
      rw [map_task_id_map _ (fun r => by
        by_cases h : r.task_id = task_id <;> simp [h])]
      exact hnd
    · intro r2 hr2 hr2run
      show WorkerSt.executing task_id = WorkerSt.executing r2.task_id
      unfold update_status at hr2
      obtain ⟨r, hr, rfl⟩ := List.mem_map.mp hr2
      by_cases hid : r.task_id = task_id
      · rw [if_pos hid]
        simp [hid]
      · rw [if_neg hid] at hr2run ⊢
        have := hrun r hr hr2run
        rw [hw] at this
        simp at this
  | finish task_id st completedAt result error hw hterm =>
    constructor
    · show ((update_status task_id st none (some completedAt) result error
        σ.store).map TaskRecord.task_id).Nodup
      unfold update_status
      rw [map_task_id_map _ (fun r => by
        by_cases h : r.task_id = task_id <;> simp [h])]
      exact hnd
    · intro r2 hr2 hr2run
      exfalso
      unfold update_status at hr2
      obtain ⟨r, hr, rfl⟩ := List.mem_map.mp hr2
      by_cases hid : r.task_id = task_id
      · rw [if_pos hid] at hr2run
        simp only at hr2run
        rcases hterm with rfl | rfl | rfl <;> simp at hr2run
      · rw [if_neg hid] at hr2run
        have := hrun r hr hr2run
        rw [hw] at this
        have := WorkerSt.executing.inj this
        exact hid this.symm
  | callbackPersist task_id attempts error =>
    constructor
    · show ((update_callback_attempt task_id attempts error σ.store).map
        TaskRecord.task_id).Nodup
      unfold update_callback_attempt
      rw [map_task_id_map _ (fun r => by
        by_cases h : r.task_id = task_id <;> simp [h])]
      exact hnd
    · intro r2 hr2 hr2run
      unfold update_callback_attempt at hr2
      obtain ⟨r, hr, rfl⟩ := List.mem_map.mp hr2
      have hst : (if r.task_id = task_id then
          { r with callback_attempts := attempts,
                   last_callback_error := error }
          else r).status = r.status := by
        split <;> rfl
      have hti : (if r.task_id = task_id then
          { r with callback_attempts := attempts,
                   last_callback_error := error }
          else r).task_id = r.task_id := by
        split <;> rfl
      rw [hst] at hr2run
      rw [hti]
      exact hrun r hr hr2run
  | reconcile now hw =>
    constructor
    · show ((mark_incomplete_as_failed now σ.store).map
        TaskRecord.task_id).Nodup
      unfold mark_incomplete_as_failed
      rw [map_task_id_map _ (fun r => by
        by_cases h : r.status = Status.queued ∨ r.status = Status.running <;>
          simp [h])]
      exact hnd
    · intro r2 hr2 hr2run
      exfalso
      unfold mark_incomplete_as_failed at hr2
      obtain ⟨r, hr, rfl⟩ := List.mem_map.mp hr2
      by_cases hq : r.status = Status.queued ∨ r.status = Status.running
      · rw [if_pos hq] at hr2run
        simp at hr2run
      · rw [if_neg hq] at hr2run
        push_neg at hq
        exact hq.2 hr2run

/-- The invariant bounds the number of `running` rows by one. -/
theorem countRunning_le_one_of_inv (σ : Sys) (h : SysInv σ) :
    countRunning σ.store ≤ 1 := by
  obtain ⟨hnd, hrun⟩ := h
  by_cases hpos : 0 < countRunning σ.store
  · unfold countRunning at hpos ⊢
    obtain ⟨r, hr, hpr⟩ := List.countP_pos_iff.mp hpos
    have hrr : r.status = Status.running := by simpa using hpr
    have hw := hrun r hr hrr
    calc σ.store.countP (fun x => decide (x.status = Status.running)) ≤
        σ.store.countP (fun x => decide (x.task_id = r.task_id)) := by
          apply List.countP_mono_left
          intro x hx hpx
          have hxr : x.status = Status.running := by simpa using hpx
          have hwx := hrun x hx hxr
          rw [hw] at hwx
          have := WorkerSt.executing.inj hwx
          simp [this]
      _ ≤ 1 := countP_task_id_le_one σ.store r.task_id hnd
  · omega

/-- C9: in every state reachable from a post-reconciliation start by
submissions, worker steps (dequeue, early return on a missing row, the
`running` transition, a terminal transition, callback bookkeeping) and
reconciliation passes, at most one record in the store has status
`running`. -/
theorem at_most_one_running (now : Nat) (s0 : Store) (q0 : List String)
    (σ : Sys) (h0 : (s0.map TaskRecord.task_id).Nodup)
    (hreach : Relation.ReflTransGen Step (postReconcileStart now s0 q0) σ) :
    countRunning σ.store ≤ 1 := by
  have hinv : SysInv σ := by
    induction hreach with
    | refl => exact SysInv_init now s0 q0 h0
    | tail hsteps hstep ih => exact SysInv_step _ _ ih hstep
  exact countRunning_le_one_of_inv σ hinv

/-- Witness for C9 at the empty start state. -/
theorem at_most_one_running_witness :
    countRunning (postReconcileStart 0 [] []).store ≤ 1 :=
  at_most_one_running 0 [] [] (postReconcileStart 0 [] []) (by simp)
    Relation.ReflTransGen.refl

end BrowserUse
